import Mathlib

set_option maxRecDepth 8192

namespace DosGo

/-- Modulus of Go's `uint32`: the rotation counter `current` is a 32-bit
unsigned integer and `atomic.AddUint32` wraps around at `2 ^ 32`. -/
def uint32Mod : Nat := 2 ^ 32

/-- Embedding of `ProxyRotator` (package `proxy`): a list of validated proxy
addresses and the shared `uint32` rotation counter (kept as a `Nat` together
with the invariant `current < uint32Mod`, maintained by `Next`). -/
structure ProxyRotator where
  proxies : List String
  current : Nat
  deriving Repr, DecidableEq

/-- Embedding of `NewProxyRotator`: the counter starts at zero. -/
def NewProxyRotator (proxies : List String) : ProxyRotator :=
  { proxies := proxies, current := 0 }

/-- Embedding of `(p *ProxyRotator) Next() string`.  If the list is empty the
empty string is returned and the counter is untouched.  Otherwise
`n = atomic.AddUint32(&p.current, 1)` (increment modulo `2 ^ 32`) and the
element at `(int(n) - 1) % len(p.proxies)` is returned, where Go's `%` is a
truncated remainder (`Int.tmod`) and `int` is the 64-bit platform integer, so
`int(n)` is the plain value of `n`.  A negative index makes the slice access
panic at run time; the panic is modelled by `none`, a normal return by
`some`. -/
def ProxyRotator.Next (p : ProxyRotator) : Option String × ProxyRotator :=
  if p.proxies.length = 0 then (some "", p)
  else
    let n := (p.current + 1) % uint32Mod
    let idx : Int := Int.tmod ((n : Int) - 1) (p.proxies.length : Int)
    (if idx < 0 then none else p.proxies.get? idx.toNat, { p with current := n })

/-- The rotator state after `k` further calls to `Next` (only the state
component; the values returned along the way are recovered by applying
`Next` to the intermediate states). -/
def applyNextCalls (p : ProxyRotator) : Nat → ProxyRotator
  | 0 => p
  | k + 1 => (ProxyRotator.Next (applyNextCalls p k)).2

/-- Embedding of `ValidateProxies` (package `proxy`).  The real code probes
every candidate concurrently with `testProxy` (one TCP connect with a 5 s
timeout, no retries) and collects the answers through two channels; the
network probe is abstracted as the oracle `test`, and the nondeterministic
channel-drain order is fixed to input order (all properties proved below are
order-independent). -/
def ValidateProxies (test : String → Bool) (proxies : List String) :
    List String × List String :=
  (proxies.filter (fun p => test p), proxies.filter (fun p => !(test p)))

/-- Embedding of `util.ReadFileEntries`: every line is trimmed and blank
lines are skipped, so every returned entry is a non-empty string. -/
def ReadFileEntries (lines : List String) : List String :=
  (lines.map (fun l => l.trim)).filter (fun l => !(l == ""))

/-- Possible results of one call to a client's `Dial` hook. -/
inductive DialOutcome where
  | direct (addr : String)
  | errorEmpty
  | socks5 (proxy addr : String)
  | panicked
  deriving Repr, DecidableEq

/-- Embedding of the `Dial` closure built by `(p *ProxyRotator) GetClient`:
ask the rotator for the next proxy; the empty string is answered with the
error `proxy address is empty` (the dial fails), otherwise the connection is
tunnelled through the proxy via SOCKS5. -/
def rotatorDial (p : ProxyRotator) (addr : String) : DialOutcome :=
  match (ProxyRotator.Next p).1 with
  | none => DialOutcome.panicked
  | some s => if s = "" then DialOutcome.errorEmpty else DialOutcome.socks5 s addr

/-- Embedding of `main`'s client selection: with a proxy list the proxied
client built by `GetClient` is used, whose dialer is `rotatorDial`; without
one, the default client dials the target directly.  Direct connection is an
explicit separate path, never produced by the proxied dialer. -/
def clientDial (useProxyList : Bool) (p : ProxyRotator) (addr : String) : DialOutcome :=
  if useProxyList then rotatorDial p addr else DialOutcome.direct addr

/-- Embedding of `Result` (main.go): HTTP status, optional error, elapsed
duration in nanoseconds (Go `time.Duration` is an `int64`; realistic counts
and sums stay far below `2 ^ 63`, so the `int64` counters are modelled as
unbounded integers). -/
structure Result where
  status : Int
  err : Option String
  duration : Int
  deriving Repr, DecidableEq

/-- The three shared aggregation counters of `main`
(`errCount`, `sentRequestCount`, `totalDuration`). -/
structure Stats where
  errCount : Int
  sentRequestCount : Int
  totalDuration : Int
  deriving Repr, DecidableEq

/-- The counters start at zero. -/
def initialStats : Stats := { errCount := 0, sentRequestCount := 0, totalDuration := 0 }

/-- Embedding of `processResponse` (main.go): the error counter is bumped
when the outcome carries an error, the sent counter is always bumped, the
outcome's duration is added to the cumulative duration. -/
def processResponse (res : Result) (s : Stats) : Stats :=
  { errCount := if res.err.isSome then s.errCount + 1 else s.errCount,
    sentRequestCount := s.sentRequestCount + 1,
    totalDuration := s.totalDuration + res.duration }

/-- Folding a whole list of outcomes through `processResponse`. -/
def aggregate (rs : List Result) (s : Stats) : Stats :=
  rs.foldl (fun st r => processResponse r st) s

/-- The counter states passed through while one `processResponse` call runs:
the code performs three separate atomic additions, first
`atomic.AddInt64(errCount, 1)` (only on error), then
`atomic.AddInt64(sentRequestsCount, 1)`, then the duration addition, so the
shared counters pass through the two intermediate states listed here. -/
def microStates (res : Result) (s : Stats) : List Stats :=
  let s1 := if res.err.isSome then { s with errCount := s.errCount + 1 } else s
  let s2 := { s1 with sentRequestCount := s1.sentRequestCount + 1 }
  let s3 := { s2 with totalDuration := s2.totalDuration + res.duration }
  [s1, s2, s3]

/-- Abstract state of the dispatch loop's concurrency discipline (main.go):
whether the shared context has been cancelled, how many tokens sit in the
buffered channel `sem` (capacity `maxGoroutines`), and how many
`sendRequest` goroutines are alive. -/
structure SysState where
  cancelled : Bool
  semCount : Nat
  running : Nat
  deriving Repr, DecidableEq

/-- At start: context live, `sem` empty, no sender running. -/
def initState : SysState := { cancelled := false, semCount := 0, running := 0 }

/-- Transitions of the dispatch loop and the senders, for semaphore capacity
`C` (`maxGoroutines`).
`spawn`: the loop's `sem <- struct{}{}` succeeds (only possible while the
buffered channel is not full, i.e. `semCount < C`, and only while the loop
still runs, i.e. not cancelled) and `go sendRequest` starts one sender.
`exitRelease`: a sender's deferred `<-sem` succeeds and the sender exits.
`exitAbandon`: after cancellation a sender's deferred select takes the
`ctx.Done()` branch and exits without releasing its token.
`cancel`: the deadline timer or an interrupt cancels the context. -/
inductive Step (C : Nat) : SysState → SysState → Prop where
  | spawn (s : SysState) : s.cancelled = false → s.semCount < C →
      Step C s { cancelled := false, semCount := s.semCount + 1, running := s.running + 1 }
  | exitRelease (s : SysState) : 0 < s.running → 0 < s.semCount →
      Step C s { cancelled := s.cancelled, semCount := s.semCount - 1, running := s.running - 1 }
  | exitAbandon (s : SysState) : s.cancelled = true → 0 < s.running →
      Step C s { cancelled := true, semCount := s.semCount, running := s.running - 1 }
  | cancel (s : SysState) :
      Step C s { cancelled := true, semCount := s.semCount, running := s.running }

/-- States reachable from the initial state through the dispatch-loop
transitions. -/
inductive Reachable (C : Nat) : SysState → Prop where
  | init : Reachable C initState
  | step {s t : SysState} : Reachable C s → Step C s t → Reachable C t

/-- The two arms of the `select` statements in `sendRequest`: the operation
(release the slot / deliver the outcome) and the `ctx.Done()` branch. -/
inductive SelectArm where
  | operation
  | cancellation
  deriving Repr, DecidableEq

/-- Go `select` semantics over the two arms used in `sendRequest`: an arm is
enabled when its communication is ready; the `ctx.Done()` arm is ready as
soon as the context is cancelled. -/
def enabledArms (opReady cancelled : Bool) : List SelectArm :=
  (if opReady then [SelectArm.operation] else []) ++
    (if cancelled then [SelectArm.cancellation] else [])

/-- A `select` with no enabled arm (and no default) blocks the goroutine. -/
def selectBlocks (opReady cancelled : Bool) : Bool :=
  (enabledArms opReady cancelled).isEmpty

/-- Configuration state of `main` after flag parsing, restricted to the
fields the startup validation inspects.  `urlParseOk` records whether
`url.Parse(*targetURL)` returned without error. -/
structure Config where
  targetURL : String
  urlParseOk : Bool
  method : String
  delayBetweenRequests : Int
  maxGoroutines : Int
  deriving Repr, DecidableEq

/-- The method allow-list of `main` (`allowedHTTPMethods`). -/
def allowedHTTPMethods : List String :=
  ["GET", "POST", "PUT", "PATCH", "DELETE", "HEAD", "OPTIONS", "CONNECT", "TRACE"]

/-- Embedding of `strings.ToUpper` applied to the method flag: uppercase
every character (`Char.toUpper`, which agrees with Go on the ASCII method
names the allow-list consists of). -/
def goToUpper (s : String) : String := String.mk (s.data.map Char.toUpper)

/-- Embedding of the fatal configuration checks of `main`: the
`url.Parse` error check followed by the `switch` over empty URL, negative
delay, non-positive `maxGoroutines` and a method (uppercased by
`strings.ToUpper` right after flag parsing) outside the allow-list.  Every
branch calls `log.Fatal`, so the run aborts exactly when one of the
conditions holds. -/
def startupFatal (c : Config) : Bool :=
  !c.urlParseOk || c.targetURL == "" || decide (c.delayBetweenRequests < 0) ||
    decide (c.maxGoroutines < 1) || !(allowedHTTPMethods.contains (goToUpper c.method))

/-- What startup leads to: an abort via `log.Fatal`, or the dispatch loop
(the `sem`/`respChan` channels are only created, and the loop only entered,
after all the fatal checks have passed). -/
inductive StartupOutcome where
  | aborted
  | dispatchLoop (c : Config)
  deriving Repr, DecidableEq

/-- Startup of `main`: abort on a fatal configuration, else enter the
dispatch loop. -/
def runStartup (c : Config) : StartupOutcome :=
  if startupFatal c then StartupOutcome.aborted else StartupOutcome.dispatchLoop c

/-- The final report of `main`, computed after `<-ctx.Done()` and
`wg.Wait()`.  The two `float64` divisions are modelled over the rationals. -/
structure FinalReport where
  sentRequests : Int
  errors : Int
  avgDuration : Rat
  rps : Rat
  deriving Repr, DecidableEq

/-- Embedding of the final-report computation (main.go): `avgDuration` is
`totalDuration / sentRequestCount` guarded by `sentRequestCount > 0` (it
stays `0` otherwise), `rps` is `sentRequestCount / elapsed seconds`. -/
def computeFinalReport (sent errs dur : Int) (elapsedSeconds : Rat) : FinalReport :=
  { sentRequests := sent,
    errors := errs,
    avgDuration := if 0 < sent then (dur : Rat) / (sent : Rat) else 0,
    rps := (sent : Rat) / elapsedSeconds }

/-- A freshly acquired response object; its status-code field is zero. -/
structure HTTPResponse where
  statusCode : Int
  deriving Repr, DecidableEq

/-- Zero-valued response handed to the client, as by
`fasthttp.AcquireResponse()`. -/
def acquireResponse : HTTPResponse := { statusCode := 0 }

/-- Outcome of one attempt on the network, as seen at the client boundary:
either a response with a status code arrived, or the attempt failed outright
(dial error, proxy failure, timeout) with an error and no response. -/
inductive NetResult where
  | response (code : Int)
  | failure (msg : String)
  deriving Repr, DecidableEq

/-- Modelled from the spec: `client.DoTimeout` of the external fasthttp
library, at its interface boundary ("issue one timed HTTP request ... and
obtain a status code, duration, and error").  On success it fills the given
response with the received status and returns no error; on total failure it
returns the error and produces no response, leaving the freshly acquired
response (status `0`) untouched. -/
def clientDoTimeout (net : NetResult) (resp : HTTPResponse) : HTTPResponse × Option String :=
  match net with
  | NetResult.response code => ({ statusCode := code }, none)
  | NetResult.failure msg => (resp, some msg)

/-- Embedding of the tail of `sendRequest` (main.go): run the request via
`client.DoTimeout` against a fresh response and build the `Result` from the
response's status code, the elapsed time and the returned error. -/
def sendRequest (net : NetResult) (elapsed : Int) : Result :=
  let out := clientDoTimeout net acquireResponse
  { status := out.1.statusCode, err := out.2, duration := elapsed }

theorem rotator_eq (p q : ProxyRotator) (h1 : p.proxies = q.proxies)
    (h2 : p.current = q.current) : p = q := by
  cases p
  cases q
  simp_all

theorem next_proxies (p : ProxyRotator) :
    (ProxyRotator.Next p).2.proxies = p.proxies := by
  unfold ProxyRotator.Next
  split
  · rfl
  · rfl

theorem next_current (p : ProxyRotator) (h : ¬ p.proxies.length = 0) :
    (ProxyRotator.Next p).2.current = (p.current + 1) % uint32Mod := by
  unfold ProxyRotator.Next
  rw [if_neg h]

theorem applyNextCalls_proxies (p : ProxyRotator) (k : Nat) :
    (applyNextCalls p k).proxies = p.proxies := by
  induction k with
  | zero => rfl
  | succ k ih => rw [applyNextCalls, next_proxies, ih]

theorem applyNextCalls_empty (p : ProxyRotator) (k : Nat) (h : p.proxies = []) :
    applyNextCalls p k = p := by
  induction k with
  | zero => rfl
  | succ k ih =>
      rw [applyNextCalls, ih]
      unfold ProxyRotator.Next
      rw [if_pos (by simp [h])]

theorem applyNextCalls_current (p : ProxyRotator) (k : Nat)
    (hne : ¬ p.proxies.length = 0) (hcur : p.current < uint32Mod) :
    (applyNextCalls p k).current = (p.current + k) % uint32Mod := by
  induction k with
  | zero => simpa [applyNextCalls] using (Nat.mod_eq_of_lt hcur).symm
  | succ k ih =>
      rw [applyNextCalls, next_current _ (by rw [applyNextCalls_proxies]; exact hne), ih]
      simp only [uint32Mod] at *
      omega

theorem next_at_count (l : List String) (c : Nat) (hl : ¬ l.length = 0)
    (hc : c + 1 < uint32Mod) :
    (ProxyRotator.Next { proxies := l, current := c }).1 = l.get? (c % l.length) := by
  unfold ProxyRotator.Next
  rw [if_neg hl]
  simp only
  rw [Nat.mod_eq_of_lt hc]
  rw [show ((c + 1 : Nat) : Int) - 1 = ((c : Nat) : Int) by push_cast; ring]
  rw [← Int.ofNat_tmod]
  rw [if_neg (by exact not_lt.mpr (Int.natCast_nonneg _))]
  congr 1

/-- C1 (amended): round-robin rotation within one counter period.  For a
fresh rotator over list `l` and any call number `i` with `1 ≤ i < 2 ^ 32`,
the i-th call to `Next` returns `l[(i - 1) % N]` when `N = l.length ≥ 1`,
and the empty-string sentinel when `N = 0`.  (As stated for every `i` the
claim fails at `i = 2 ^ 32`, where the `uint32` counter wraps to `0`: see
the counterexample.) -/
theorem next_round_robin (l : List String) (i : Nat) (h1 : 1 ≤ i) (h2 : i < uint32Mod) :
    (ProxyRotator.Next (applyNextCalls { proxies := l, current := 0 } (i - 1))).1 =
      if l.length = 0 then some "" else l.get? ((i - 1) % l.length) := by
  by_cases hl : l.length = 0
  · rw [if_pos hl]
    rw [applyNextCalls_empty _ _ (List.length_eq_zero.mp hl)]
    unfold ProxyRotator.Next
    rw [if_pos hl]
  · rw [if_neg hl]
    have hX : applyNextCalls { proxies := l, current := 0 } (i - 1) =
        { proxies := l, current := i - 1 } := by
      apply rotator_eq
      · rw [applyNextCalls_proxies]
      · rw [applyNextCalls_current _ _ hl (by simp [uint32Mod])]
        simp only [uint32Mod] at *
        omega
    rw [hX]
    exact next_at_count l (i - 1) hl (by omega)

/-- C1 counterexample: with two proxies, the `2 ^ 32`-th call does not
return `list[(i - 1) % N]` (which would be `"b"`); the wrapped counter makes
the code compute slice index `-1` and panic (modelled by `none`). -/
theorem next_round_robin_cex :
    ¬ ((ProxyRotator.Next (applyNextCalls { proxies := ["a", "b"], current := 0 }
          (uint32Mod - 1))).1 =
        (["a", "b"] : List String).get? ((uint32Mod - 1) % 2)) := by
  have hX : applyNextCalls { proxies := ["a", "b"], current := 0 } (uint32Mod - 1) =
      { proxies := ["a", "b"], current := uint32Mod - 1 } := by
    apply rotator_eq
    · rw [applyNextCalls_proxies]
    · rw [applyNextCalls_current _ _ (by decide) (by decide)]
      decide
  rw [hX]
  decide

/-- C1 witness: the third call on a fresh two-element rotator returns the
element at index `(3 - 1) % 2 = 0`. -/
theorem next_round_robin_witness :
    (ProxyRotator.Next (applyNextCalls { proxies := ["a", "b"], current := 0 } (3 - 1))).1 =
      some "a" := by
  have h := next_round_robin ["a", "b"] 3 (by decide) (by decide)
  simpa using h

/-- C10: refuted.  At the `2 ^ 32`-th call the wrapped counter yields
`n = 0`, the computed index `(int(n) - 1) % N` is `-1`, and the slice access
is out of range: `Next` panics (modelled by `none`) instead of returning an
element of the list. -/
theorem next_wraparound_panics :
    (ProxyRotator.Next { proxies := ["a", "b"], current := uint32Mod - 1 }).1 = none ∧
    ∀ x ∈ (["a", "b"] : List String),
      (ProxyRotator.Next { proxies := ["a", "b"], current := uint32Mod - 1 }).1 ≠ some x := by
  decide

/-- C7: on every rotator whose entries are non-empty strings (as guaranteed
for the program's rotators, whose entries come from `ReadFileEntries`, which
trims lines and drops blank ones), `Next` returns the empty string iff the
list is empty; the proxied dialer answers the empty string with an error and
never falls back to a direct connection; and an all-invalid candidate list
yields an empty rotator whose every dial attempt fails with that error. -/
theorem next_empty_sentinel (p : ProxyRotator) (addr : String)
    (hne : ∀ x ∈ p.proxies, x ≠ "") :
    ((ProxyRotator.Next p).1 = some "" ↔ p.proxies = []) ∧
    (p.proxies = [] → clientDial true p addr = DialOutcome.errorEmpty) ∧
    (∀ a b : String, clientDial true p a ≠ DialOutcome.direct b) ∧
    (∀ lines : List String, ∀ x ∈ ReadFileEntries lines, x ≠ "") ∧
    (∀ (test : String → Bool) (cand : List String), (∀ x ∈ cand, test x = false) →
      clientDial true { proxies := (ValidateProxies test cand).1, current := 0 } addr =
        DialOutcome.errorEmpty) := by
  refine ⟨⟨?_, ?_⟩, ?_, ?_, ?_, ?_⟩
  · intro h
    by_contra hcon
    have hl : ¬ p.proxies.length = 0 := by
      simpa [List.length_eq_zero] using hcon
    unfold ProxyRotator.Next at h
    rw [if_neg hl] at h
    simp only at h
    split at h
    · exact Option.noConfusion h
    · exact hne "" (List.get?_mem h) rfl
  · intro h
    unfold ProxyRotator.Next
    rw [if_pos (by simp [h])]
  · intro h
    have hfst : (ProxyRotator.Next p).1 = some "" := by
      unfold ProxyRotator.Next
      rw [if_pos (by simp [h])]
    simp [clientDial, rotatorDial, hfst]
  · intro a b
    unfold clientDial rotatorDial
    rw [if_pos rfl]
    rcases hfst : (ProxyRotator.Next p).1 with _ | s
    · simp
    · by_cases hs : s = "" <;> simp [hs]
  · intro lines x hx
    unfold ReadFileEntries at hx
    rw [List.mem_filter] at hx
    simpa using hx.2
  · intro test cand hall
    have hval : (ValidateProxies test cand).1 = [] := by
      simp only [ValidateProxies]
      rw [List.filter_eq_nil_iff]
      intro a ha
      simp [hall a ha]
    simp [clientDial, rotatorDial, ProxyRotator.Next, hval]

/-- C7 witness: on the empty rotator, `Next` yields the sentinel empty
string and the proxied dialer fails the attempt with the empty-proxy
error. -/
theorem next_empty_sentinel_witness :
    (ProxyRotator.Next { proxies := ([] : List String), current := 0 }).1 = some "" ∧
    clientDial true { proxies := ([] : List String), current := 0 } "target:80" =
      DialOutcome.errorEmpty := by
  have h := next_empty_sentinel { proxies := ([] : List String), current := 0 } "target:80"
    (by simp)
  exact ⟨h.1.mpr rfl, h.2.1 rfl⟩

theorem aggregate_cons (r : Result) (rs : List Result) (s : Stats) :
    aggregate (r :: rs) s = aggregate rs (processResponse r s) := rfl

theorem aggregate_append (pre suf : List Result) (s : Stats) :
    aggregate (pre ++ suf) s = aggregate suf (aggregate pre s) := by
  unfold aggregate
  exact List.foldl_append _ _ _ _

theorem aggregate_fields (rs : List Result) (s : Stats) :
    (aggregate rs s).sentRequestCount = s.sentRequestCount + rs.length ∧
    (aggregate rs s).errCount = s.errCount + rs.countP (fun r => r.err.isSome) ∧
    (aggregate rs s).totalDuration = s.totalDuration + (rs.map Result.duration).sum := by
  induction rs generalizing s with
  | nil => simp [aggregate]
  | cons r rs ih =>
      obtain ⟨ih1, ih2, ih3⟩ := ih (processResponse r s)
      rw [aggregate_cons]
      refine ⟨?_, ?_, ?_⟩
      · rw [ih1]
        simp [processResponse]
        omega
      · rw [ih2]
        by_cases he : r.err.isSome
        all_goals simp [processResponse, he, List.countP_cons]
        all_goals omega
      · rw [ih3]
        simp [processResponse]
        omega

/-- C2 (amended): exact aggregation counting.  After any finite list of
outcomes the sent counter equals exactly the number of outcomes, the error
counter exactly the number of erroneous outcomes, the cumulative duration
exactly the sum of durations; at every outcome boundary (after each complete
`processResponse`) `errors ≤ sent_requests` holds, and the sent counter
never decreases as further outcomes are consumed.  (As stated — at *every*
intermediate point — the claim fails: inside one `processResponse` call the
error counter is incremented before the sent counter, see the
counterexample.) -/
theorem aggregation_exact (rs pre suf : List Result) (h : rs = pre ++ suf) :
    (aggregate rs initialStats).sentRequestCount = rs.length ∧
    (aggregate rs initialStats).errCount = rs.countP (fun r => r.err.isSome) ∧
    (aggregate rs initialStats).totalDuration = (rs.map Result.duration).sum ∧
    (aggregate pre initialStats).errCount ≤ (aggregate pre initialStats).sentRequestCount ∧
    (aggregate pre initialStats).sentRequestCount ≤ (aggregate rs initialStats).sentRequestCount := by
  obtain ⟨h1, h2, h3⟩ := aggregate_fields rs initialStats
  obtain ⟨p1, p2, p3⟩ := aggregate_fields pre initialStats
  have hcount : pre.countP (fun r => r.err.isSome) ≤ pre.length := List.countP_le_length _
  have hlen : pre.length ≤ rs.length := by
    subst h
    simp
  refine ⟨?_, ?_, ?_, ?_, ?_⟩
  · rw [h1]
    simp [initialStats]
  · rw [h2]
    simp [initialStats]
  · rw [h3]
    simp [initialStats]
  · rw [p1, p2]
    simp [initialStats]
    exact_mod_cast hcount
  · rw [p1, h1]
    simp [initialStats]
    exact_mod_cast hlen

/-- C2 counterexample: processing one erroneous outcome from the zero
counters, the shared state between the error increment and the sent
increment has `errors = 1 > 0 = sent_requests`, so `errors ≤ sent_requests`
does not hold at every intermediate point. -/
theorem aggregation_exact_cex :
    ¬ (∀ st ∈ microStates { status := 0, err := some "dial error", duration := 5 } initialStats,
        st.errCount ≤ st.sentRequestCount) := by
  decide

/-- C2 witness: two concrete outcomes (one success, one error) aggregated
from the zero counters give `sent = 2`. -/
theorem aggregation_exact_witness :
    (aggregate [{ status := 200, err := none, duration := 3 },
      { status := 0, err := some "x", duration := 7 }] initialStats).sentRequestCount = 2 := by
  have h := aggregation_exact
    [{ status := 200, err := none, duration := 3 }, { status := 0, err := some "x", duration := 7 }]
    [{ status := 200, err := none, duration := 3 }]
    [{ status := 0, err := some "x", duration := 7 }] rfl
  simpa using h.1

/-- C3: `ValidateProxies` partitions its input: an address lands in the
valid sequence iff its single TCP probe succeeds and in the invalid one
otherwise, the lengths add up to the input length, and the two sequences
together are a permutation of the input (no address lost or duplicated). -/
theorem validate_partition (test : String → Bool) (proxies : List String) :
    (∀ x, x ∈ (ValidateProxies test proxies).1 ↔ x ∈ proxies ∧ test x = true) ∧
    (∀ x, x ∈ (ValidateProxies test proxies).2 ↔ x ∈ proxies ∧ test x = false) ∧
    (ValidateProxies test proxies).1.length + (ValidateProxies test proxies).2.length =
      proxies.length ∧
    List.Perm ((ValidateProxies test proxies).1 ++ (ValidateProxies test proxies).2) proxies := by
  have hperm : List.Perm ((ValidateProxies test proxies).1 ++ (ValidateProxies test proxies).2)
      proxies := by
    simpa [ValidateProxies] using List.filter_append_perm (fun p => test p) proxies
  refine ⟨?_, ?_, ?_, hperm⟩
  · intro x
    simp [ValidateProxies, List.mem_filter]
  · intro x
    simp [ValidateProxies, List.mem_filter]
  · have := hperm.length_eq
    simpa using this

theorem reachable_inv {C : Nat} {s : SysState} (h : Reachable C s) :
    s.running ≤ s.semCount ∧ s.semCount ≤ C := by
  induction h with
  | init => exact ⟨Nat.le_refl _, Nat.zero_le _⟩
  | step hr hs ih =>
      cases hs with
      | spawn h1 h2 =>
          refine ⟨?_, ?_⟩
          all_goals simp
          all_goals omega
      | exitRelease h1 h2 =>
          refine ⟨?_, ?_⟩
          all_goals simp
          all_goals omega
      | exitAbandon h1 h2 =>
          refine ⟨?_, ?_⟩
          all_goals simp
          all_goals omega
      | cancel => simpa using ih

/-- C4: bounded concurrency.  In every state reachable under semaphore
capacity `C = maxGoroutines`, at most `C` request senders run concurrently;
each running sender holds one token of the capacity-`C` channel `sem`
(`running ≤ semCount`) and the channel never exceeds its capacity
(`semCount ≤ C`). -/
theorem bounded_concurrency {C : Nat} {s : SysState} (h : Reachable C s) :
    s.running ≤ C ∧ s.running ≤ s.semCount ∧ s.semCount ≤ C :=
  ⟨Nat.le_trans (reachable_inv h).1 (reachable_inv h).2, (reachable_inv h).1,
    (reachable_inv h).2⟩

/-- C4 witness: with capacity 2, the state after one admission (one token in
`sem`, one sender running) is reachable and satisfies the bound. -/
theorem bounded_concurrency_witness :
    ({ cancelled := false, semCount := 1, running := 1 } : SysState).running ≤ 2 := by
  have hr : Reachable 2 { cancelled := false, semCount := 1, running := 1 } :=
    Reachable.step Reachable.init (Step.spawn initState rfl (by decide))
  exact (bounded_concurrency hr).1

/-- C6: never-block on shutdown.  In every reachable state where the
cancellation signal is set and a sender is still running, the sender can
exit at once (its deferred slot release completes or abandons via the
`ctx.Done()` arm); a two-arm `select` racing an operation against the
cancellation signal never blocks once the signal is set; and a delivery
whose operation arm is not ready takes exactly the cancellation arm,
silently dropping the outcome. -/
theorem shutdown_never_blocks {C : Nat} {s : SysState} (_hrun : Reachable C s)
    (hc : s.cancelled = true) (hr : 0 < s.running) :
    (∃ t, Step C s t ∧ t.running + 1 = s.running) ∧
    (∀ opReady : Bool, selectBlocks opReady true = false) ∧
    enabledArms false true = [SelectArm.cancellation] := by
  refine ⟨?_, ?_, rfl⟩
  · exact ⟨{ cancelled := true, semCount := s.semCount, running := s.running - 1 },
      Step.exitAbandon s hc hr, Nat.succ_pred_eq_of_pos hr⟩
  · intro opReady
    cases opReady <;> rfl

/-- C6 witness: with capacity 1, the cancelled state with one sender still
running is reachable, and from it the sender can exit in one step. -/
theorem shutdown_never_blocks_witness :
    ∃ t, Step 1 { cancelled := true, semCount := 1, running := 1 } t ∧ t.running + 1 = 1 := by
  have hr : Reachable 1 { cancelled := true, semCount := 1, running := 1 } :=
    Reachable.step (Reachable.step Reachable.init (Step.spawn initState rfl (by decide)))
      (Step.cancel { cancelled := false, semCount := 1, running := 1 })
  exact (shutdown_never_blocks hr rfl (by decide)).1

/-- C5: final-report formulas.  The emitted average request duration is the
cumulative duration divided by the sent count, guarded to `0` when nothing
was sent (no division by zero), and the requests-per-second figure is the
sent count divided by the elapsed wall-clock seconds. -/
theorem final_report_formulas (sent errs dur : Int) (elapsed : Rat) :
    (sent = 0 → (computeFinalReport sent errs dur elapsed).avgDuration = 0) ∧
    (0 < sent → (computeFinalReport sent errs dur elapsed).avgDuration * (sent : Rat) =
      (dur : Rat)) ∧
    (0 < elapsed → (computeFinalReport sent errs dur elapsed).rps * elapsed = (sent : Rat)) := by
  refine ⟨?_, ?_, ?_⟩
  · intro h
    simp [computeFinalReport, h]
  · intro h
    have hne : (sent : Rat) ≠ 0 := by
      exact_mod_cast Int.ne_of_gt h
    simp [computeFinalReport, h]
    exact div_mul_cancel₀ _ hne
  · intro h
    have hne : elapsed ≠ 0 := ne_of_gt h
    simp [computeFinalReport]
    exact div_mul_cancel₀ _ hne

/-- C5 witness: 2 sent requests with 10 ns cumulative duration over 5
seconds give an average satisfying `avg * 2 = 10` and a rate satisfying
`rps * 5 = 2`. -/
theorem final_report_formulas_witness :
    (computeFinalReport 2 1 10 5).avgDuration * ((2 : Int) : Rat) = ((10 : Int) : Rat) ∧
    (computeFinalReport 2 1 10 5).rps * 5 = ((2 : Int) : Rat) := by
  have h := final_report_formulas 2 1 10 5
  exact ⟨h.2.1 (by norm_num), h.2.2 (by norm_num)⟩

/-- C8: fatal configuration errors.  Whenever the target URL is empty or
does not parse, the uppercased method lies outside the allowed set, the
concurrency bound is below 1, or the delay is negative, startup aborts
(every matching branch is a `log.Fatal`) and the dispatch loop — created
only after the checks — is never entered, so no request is issued. -/
theorem config_errors_fatal (c : Config)
    (h : c.targetURL = "" ∨ c.urlParseOk = false ∨
      ¬ goToUpper c.method ∈ allowedHTTPMethods ∨ c.maxGoroutines < 1 ∨
      c.delayBetweenRequests < 0) :
    runStartup c = StartupOutcome.aborted := by
  unfold runStartup
  rw [if_pos ?_]
  unfold startupFatal
  simp
  tauto

/-- C8 witness: a config whose method `brew` (uppercased `BREW`) is outside
the allowed set aborts startup. -/
theorem config_errors_fatal_witness :
    runStartup { targetURL := "http://localhost:8080", urlParseOk := true, method := "brew",
                 delayBetweenRequests := 0, maxGoroutines := 10 } = StartupOutcome.aborted := by
  exact config_errors_fatal _ (Or.inr (Or.inr (Or.inl (by decide))))

/-- C9: failure status code.  A request attempt that produces no response
(`DoTimeout` returns an error: dial failure, proxy failure or timeout)
yields an Outcome recording status code 0, together with the elapsed time
and the error. -/
theorem failure_status_zero (msg : String) (elapsed : Int) :
    (sendRequest (NetResult.failure msg) elapsed).status = 0 ∧
    (sendRequest (NetResult.failure msg) elapsed).err = some msg ∧
    (sendRequest (NetResult.failure msg) elapsed).duration = elapsed :=
  ⟨rfl, rfl, rfl⟩

end DosGo
